import Mathlib

/-!
Verification of the PIM JIT / anti-sticky-admin audit tool (src/pim_audit.py).

The development shallowly embeds the classification engine of `main`, the
paginated fetch helper `gget_all`, and the role-name resolver `role_name` /
`load_all_role_definitions` as pure Lean functions.  Timestamps are modelled
as integer microseconds since 0001-01-01T00:00:00 UTC, which is exactly the
resolution of Python datetime values; the Python `datetime.fromisoformat`
call (applied after the Z-to-offset replacement in the source) is modelled by
`parseAwareChars`, which covers timezone-aware ISO-8601 timestamps of the
form YYYY-MM-DDTHH:MM:SS[.fff...]+HH:MM, truncating fractional seconds
beyond microsecond precision (naive timestamps, whose comparison with the
aware cutoff would raise in the source, are outside the domain of the model and
parse to `none`).  Network effects are modelled by explicit oracles and
finite response traces; console logging and file output are not modelled
except where a claim mentions the computed log text.
-/

set_option autoImplicit false

namespace PimAudit

/-- Value of an ASCII digit character, `none` for non-digits. -/
def digitVal (c : Char) : Option Nat :=
  if c.isDigit then some (c.toNat - 48) else none

/-- Read exactly `k` ASCII digits from the front of the character list,
returning their decimal value and the rest of the list. -/
def readN : Nat → List Char → Option (Nat × List Char)
  | 0, cs => some (0, cs)
  | _ + 1, [] => none
  | k + 1, c :: cs =>
    match digitVal c with
    | none => none
    | some d =>
      match readN k cs with
      | none => none
      | some (r, rest) => some (d * 10 ^ k + r, rest)

/-- Consume one expected character. -/
def expectC (c : Char) : List Char → Option (List Char)
  | [] => none
  | x :: xs => if x = c then some xs else none

/-- Take a maximal run of ASCII digits, returning (value, digit count, rest). -/
def takeDigits : List Char → Nat × Nat × List Char
  | [] => (0, 0, [])
  | c :: cs =>
    match digitVal c with
    | none => (0, 0, c :: cs)
    | some d =>
      let (v, n, rest) := takeDigits cs
      (d * 10 ^ n + v, n + 1, rest)

/-- Is `y` a Gregorian leap year? -/
def leapYear (y : Nat) : Bool :=
  (y % 4 = 0 && y % 100 ≠ 0) || y % 400 = 0

/-- Days in the given month of the given year. -/
def daysInMonth (y m : Nat) : Nat :=
  if m = 2 then (if leapYear y then 29 else 28)
  else if m = 4 ∨ m = 6 ∨ m = 9 ∨ m = 11 then 30 else 31

/-- Days from the start of year `y` to the start of month `m` of year `y`. -/
def daysBeforeMonth (y m : Nat) : Nat :=
  let base := (List.getD [0, 31, 59, 90, 120, 151, 181, 212, 243, 273, 304, 334] (m - 1) 0)
  if leapYear y && 2 < m then base + 1 else base

/-- Day number of the civil date y-m-d, with 0001-01-01 as day 0. -/
def daysFromEpoch (y m d : Nat) : Nat :=
  let py := y - 1
  py * 365 + (py / 4 - py / 100) + py / 400 + daysBeforeMonth y m + (d - 1)

/-- Parse an optional fractional-second part: either no dot, or a dot
followed by at least one digit. -/
def parseFrac : List Char → Option (Nat × Nat × List Char)
  | '.' :: rest =>
    let (v, n, cs) := takeDigits rest
    if n = 0 then none else some (v, n, cs)
  | cs => some (0, 0, cs)

/-- Parse the YYYY-MM-DD date part. -/
def parseDate (cs : List Char) : Option (Nat × Nat × Nat × List Char) :=
  match readN 4 cs with
  | none => none
  | some (y, cs1) =>
    match expectC '-' cs1 with
    | none => none
    | some cs2 =>
      match readN 2 cs2 with
      | none => none
      | some (mo, cs3) =>
        match expectC '-' cs3 with
        | none => none
        | some cs4 =>
          match readN 2 cs4 with
          | none => none
          | some (d, cs5) => some (y, mo, d, cs5)

/-- Parse HH:MM:SS with an optional fractional-second part, returning
(hour, minute, whole seconds, fraction numerator, fraction digit count). -/
def parseTime (cs : List Char) : Option (Nat × Nat × Nat × Nat × Nat × List Char) :=
  match readN 2 cs with
  | none => none
  | some (h, cs1) =>
    match expectC ':' cs1 with
    | none => none
    | some cs2 =>
      match readN 2 cs2 with
      | none => none
      | some (mi, cs3) =>
        match expectC ':' cs3 with
        | none => none
        | some cs4 =>
          match readN 2 cs4 with
          | none => none
          | some (sec, cs5) =>
            match parseFrac cs5 with
            | none => none
            | some (fn, fl, cs6) => some (h, mi, sec, fn, fl, cs6)

/-- Parse a +HH:MM or -HH:MM UTC offset, which must end the string,
returning its value in seconds. -/
def parseOffsetEnd (cs : List Char) : Option Int :=
  match cs with
  | s :: cs0 =>
    if s = '+' ∨ s = '-' then
      match readN 2 cs0 with
      | none => none
      | some (oh, cs1) =>
        match expectC ':' cs1 with
        | none => none
        | some cs2 =>
          match readN 2 cs2 with
          | none => none
          | some (om, cs3) =>
            if cs3 = [] ∧ oh ≤ 23 ∧ om ≤ 59 then
              some ((if s = '-' then -1 else 1) * (oh * 3600 + om * 60))
            else none
    else none
  | [] => none

/-- Truncate a parsed fractional-second part to whole microseconds, as a
Python datetime does (digits beyond the sixth are discarded). -/
def fracToMicros (fn fl : Nat) : Nat :=
  if fl ≤ 6 then fn * 10 ^ (6 - fl) else fn / 10 ^ (fl - 6)

/-- Model of `datetime.fromisoformat` restricted to timezone-aware inputs:
parses YYYY-MM-DDTHH:MM:SS with an optional fractional-second part and a
mandatory +HH:MM or -HH:MM offset, returning UTC microseconds since
0001-01-01T00:00:00+00:00.  Any other shape (including naive timestamps)
returns `none`, modelling either a parse error or an input whose later
aware-vs-naive comparison would raise in the source. -/
def parseAwareChars (cs : List Char) : Option Int :=
  match parseDate cs with
  | none => none
  | some (y, mo, d, cs1) =>
    match expectC 'T' cs1 with
    | none => none
    | some cs2 =>
      match parseTime cs2 with
      | none => none
      | some (h, mi, sec, fn, fl, cs3) =>
        match parseOffsetEnd cs3 with
        | none => none
        | some off =>
          if 1 ≤ y ∧ 1 ≤ mo ∧ mo ≤ 12 ∧ 1 ≤ d ∧ d ≤ daysInMonth y mo ∧
              h ≤ 23 ∧ mi ≤ 59 ∧ sec ≤ 59 then
            some (((daysFromEpoch y mo d * 86400 + h * 3600 + mi * 60 + sec) * 1000000 +
              fracToMicros fn fl : Nat) - off * 1000000)
          else none

/-- Model of the replace call in the source, dt.replace of Z by +00:00: every occurrence of
the character Z is replaced by the six characters +00:00. -/
def replaceZchars : List Char → List Char
  | [] => []
  | c :: cs =>
    if c = 'Z' then '+' :: '0' :: '0' :: ':' :: '0' :: '0' :: replaceZchars cs
    else c :: replaceZchars cs

/-- Parse an ISO timestamp after the Z-to-offset replacement, exactly as
`datetime.fromisoformat(dt.replace("Z","+00:00"))` does in the source. -/
def iso_ts (s : String) : Option Int :=
  parseAwareChars (replaceZchars s.data)

/-- Model of the local helper in the source named the same way: a falsy (missing or
empty) timestamp gives `none`; otherwise the Z-replaced string is parsed,
parse failures giving `none`. -/
def _parse_iso (dt : Option String) : Option Int :=
  match dt with
  | none => none
  | some s => if s = "" then none else iso_ts s

/-! ### Policy constants and risk rules -/

/-- Narrative stale-eligibility label (days), from the source constants. -/
def STALE_ELIGIBILITY_DAYS : Nat := 90

/-- Maximum tolerated activation duration in hours. -/
def MAX_ACTIVATION_HOURS : Nat := 8

/-- Look-back window for activations, in days. -/
def WINDOW_DAYS : Nat := 30

/-- The fixed privileged-role set from the source (a Python set of 8 exact
role display names; modelled as a list used only for membership tests). -/
def PRIV_ROLES : List String :=
  ["Global Administrator",
   "Privileged Role Administrator",
   "Security Administrator",
   "Conditional Access Administrator",
   "Application Administrator",
   "Cloud Application Administrator",
   "Exchange Administrator",
   "SharePoint Administrator"]

/-- Boolean membership test in PRIV_ROLES, used by the executable engine. -/
def isPriv (s : String) : Bool :=
  decide (s ∈ PRIV_ROLES)

/-! ### Data model

Raw records carry their JSON fields as `Option String`, `none` modelling a
field absent from the payload (Python `dict.get` returning `None`). -/

/-- A directory roleAssignment record, as read by `main`. -/
structure RoleAssignment where
  principalId : Option String
  roleDefinitionId : Option String
  id : Option String
  createdDateTime : Option String
deriving DecidableEq

/-- A roleEligibilitySchedule record, as read by `main`. -/
structure RoleEligibilitySchedule where
  principalId : Option String
  roleDefinitionId : Option String
  id : Option String
  startDateTime : Option String
deriving DecidableEq

/-- A roleAssignmentScheduleInstance record, as read by `main`. -/
structure RoleAssignmentScheduleInstance where
  principalId : Option String
  roleDefinitionId : Option String
  id : Option String
  startDateTime : Option String
  endDateTime : Option String
deriving DecidableEq

/-- The (principalId, roleDefinitionId) join key. -/
abbrev Key := Option String × Option String

/-! ### Window filter and key sets -/

/-- The cutoff `since_dt = now - timedelta(days=WINDOW_DAYS)`, with `now`
in microseconds. -/
def since_dt (now : Int) : Int :=
  now - WINDOW_DAYS * 86400 * 1000000

/-- The local window test from the comprehension
`(s := _parse_iso(i.get("startDateTime"))) and s >= since_dt`. -/
def inWindow (now : Int) (i : RoleAssignmentScheduleInstance) : Bool :=
  match _parse_iso i.startDateTime with
  | none => false
  | some s => since_dt now ≤ s

/-- The filtered instance list `inst` of `main`. -/
def instFilter (now : Int) (inst_all : List RoleAssignmentScheduleInstance) :
    List RoleAssignmentScheduleInstance :=
  inst_all.filter (inWindow now)

/-- The key set built at the permanent-assignment join (source line 204):
`{(i.get("principalId"), i.get("roleDefinitionId")) for i in inst}`. -/
def inst_keys (inst : List RoleAssignmentScheduleInstance) : List Key :=
  inst.map (fun i => (i.principalId, i.roleDefinitionId))

/-- The key set built at the stale-eligibility join (source line 220), a
second comprehension textually identical to the one behind `inst_keys`. -/
def recent_keys (inst : List RoleAssignmentScheduleInstance) : List Key :=
  inst.map (fun i => (i.principalId, i.roleDefinitionId))

/-! ### The three violation derivations

Role-name and UPN resolution are network-backed in the source; the engine
claims hold them fixed, so the derivations are parameterised by pure
resolver functions `resolve` and `upnOf`. -/

/-- An enriched permanent/standing-assignment output record. -/
structure PermanentRecord where
  principalId : Option String
  principalUPN : String
  role : String
  assignmentId : Option String
  createdDateTime : Option String
deriving DecidableEq

/-- An enriched stale-eligibility output record. -/
structure StaleRecord where
  principalId : Option String
  principalUPN : String
  role : String
  eligibilityId : Option String
  eligibleSince : Option String
deriving DecidableEq

/-- An enriched long-activation output record. -/
structure LongActivationRecord where
  principalId : Option String
  principalUPN : String
  role : String
  instanceId : Option String
  startField : String
  endField : String
  hours : Rat
deriving DecidableEq

/-- One iteration of the permanent-assignment loop: `some` of the enriched
record appended for this assignment, `none` when the loop body skips it. -/
def classifyAssignment (resolve : Option String → String) (upnOf : Option String → String)
    (keys : List Key) (a : RoleAssignment) : Option PermanentRecord :=
  let rname := resolve a.roleDefinitionId
  if isPriv rname then
    if (a.principalId, a.roleDefinitionId) ∈ keys then none
    else some ⟨a.principalId, upnOf a.principalId, rname, a.id, a.createdDateTime⟩
  else none

/-- The `permanent` list of `main`. -/
def permanentOf (resolve upnOf : Option String → String) (keys : List Key)
    (assignments : List RoleAssignment) : List PermanentRecord :=
  assignments.filterMap (classifyAssignment resolve upnOf keys)

/-- One iteration of the stale-eligibility loop. -/
def classifyEligibility (resolve : Option String → String) (upnOf : Option String → String)
    (keys : List Key) (e : RoleEligibilitySchedule) : Option StaleRecord :=
  let rname := resolve e.roleDefinitionId
  if isPriv rname then
    if (e.principalId, e.roleDefinitionId) ∈ keys then none
    else some ⟨e.principalId, upnOf e.principalId, rname, e.id, e.startDateTime⟩
  else none

/-- The `stale` list of `main`. -/
def staleOf (resolve upnOf : Option String → String) (keys : List Key)
    (eligibles : List RoleEligibilitySchedule) : List StaleRecord :=
  eligibles.filterMap (classifyEligibility resolve upnOf keys)

/-- The duration in fractional hours `(e - s).total_seconds()/3600.0`, for
timestamps in microseconds.  Python computes this as an exact
integer-microsecond difference divided in float; the rational value agrees
with the float comparison against the 8-hour threshold for every
microsecond-precision input. -/
def hoursOf (s e : Int) : Rat :=
  (((e - s : Int) : Rat) / 1000000) / 3600

/-- Round half to even, the rounding mode of Python round. -/
def roundHalfEven (q : Rat) : Int :=
  if q - (⌊q⌋ : Rat) < 1 / 2 then ⌊q⌋
  else if 1 / 2 < q - (⌊q⌋ : Rat) then ⌊q⌋ + 1
  else if ⌊q⌋ % 2 = 0 then ⌊q⌋ else ⌊q⌋ + 1

/-- Model of Python round(x, 2). -/
def round2 (q : Rat) : Rat :=
  ((roundHalfEven (q * 100) : Int) : Rat) / 100

/-- One iteration of the long-activation loop over the in-window instances:
non-privileged role, falsy start/end, or a timestamp parse failure all skip
the record (the try/except in the source swallows parse errors). -/
def classifyInstance (resolve : Option String → String) (upnOf : Option String → String)
    (i : RoleAssignmentScheduleInstance) : Option LongActivationRecord :=
  let rname := resolve i.roleDefinitionId
  if isPriv rname then
    match i.startDateTime, i.endDateTime with
    | some startS, some endS =>
      if startS ≠ "" ∧ endS ≠ "" then
        match iso_ts startS, iso_ts endS with
        | some s, some e =>
          let hours := hoursOf s e
          if (MAX_ACTIVATION_HOURS : Rat) < hours then
            some ⟨i.principalId, upnOf i.principalId, rname, i.id, startS, endS, round2 hours⟩
          else none
        | _, _ => none
      else none
    | _, _ => none
  else none

/-- The `long_acts` list of `main`, ranging over the filtered `inst`. -/
def longActsOf (resolve upnOf : Option String → String)
    (inst : List RoleAssignmentScheduleInstance) : List LongActivationRecord :=
  inst.filterMap (classifyInstance resolve upnOf)

/-! ### Metrics and the run pipeline -/

/-- Insert a string into an ascending list, for the model of Python
sorted(). -/
def insertSorted (s : String) : List String → List String
  | [] => [s]
  | t :: ts => if s < t then s :: t :: ts else t :: insertSorted s ts

/-- Ascending string sort (insertion sort), modelling sorted(list(...)). -/
def sortStrings (l : List String) : List String :=
  l.foldr insertSorted []

/-- The metrics count re-scanning all assignments:
`sum(1 for a in assignments if role_name(...) in PRIV_ROLES)`. -/
def countPrivAssignments (resolve : Option String → String)
    (assignments : List RoleAssignment) : Nat :=
  (assignments.filter (fun a => isPriv (resolve a.roleDefinitionId))).length

/-- The metrics count re-scanning all eligibility schedules. -/
def countPrivEligibles (resolve : Option String → String)
    (eligibles : List RoleEligibilitySchedule) : Nat :=
  (eligibles.filter (fun e => isPriv (resolve e.roleDefinitionId))).length

/-- The metrics dictionary of `main`.  Fields appear in source order; the
`timestamp` field carries the run timestamp string `ts`. -/
structure Metrics where
  timestamp : String
  privileged_roles_tracked : List String
  active_privileged_assignments : Nat
  eligible_privileged_users : Nat
  activations_last_window : Nat
  permanent_privileged_assignments : Nat
  stale_eligibilities_90d : Nat
  long_activations_over_8h : Nat
deriving DecidableEq

/-- The timestamp-independent content of a metrics record. -/
def metricsBody (m : Metrics) :
    List String × Nat × Nat × Nat × Nat × Nat × Nat :=
  (m.privileged_roles_tracked, m.active_privileged_assignments,
   m.eligible_privileged_users, m.activations_last_window,
   m.permanent_privileged_assignments, m.stale_eligibilities_90d,
   m.long_activations_over_8h)

/-- The full classification output of one run of `main` (violation lists
plus metrics), before file/ticket output. -/
structure AuditOutput where
  permanent : List PermanentRecord
  stale : List StaleRecord
  long_acts : List LongActivationRecord
  metrics : Metrics
deriving DecidableEq

/-- The classification portion of `main`, from the local window filter to
the metrics dictionary, with role-name and UPN resolution held fixed as the
pure functions `resolve` and `upnOf`, the reference time `now` and run
timestamp `ts` given as parameters. -/
def runClassification (resolve upnOf : Option String → String) (now : Int) (ts : String)
    (assignments : List RoleAssignment) (eligibles : List RoleEligibilitySchedule)
    (inst_all : List RoleAssignmentScheduleInstance) : AuditOutput :=
  let inst := instFilter now inst_all
  let permanent := permanentOf resolve upnOf (inst_keys inst) assignments
  let stale := staleOf resolve upnOf (recent_keys inst) eligibles
  let long_acts := longActsOf resolve upnOf inst
  ⟨permanent, stale, long_acts,
   ⟨ts, sortStrings PRIV_ROLES,
    countPrivAssignments resolve assignments,
    countPrivEligibles resolve eligibles,
    inst.length, permanent.length, stale.length, long_acts.length⟩⟩

/-! ### Model of the paginated fetch `gget_all`

An execution is run against a finite trace of HTTP responses, consumed in
the order the loop issues requests (a 429 retry consumes the next response
for the same page URL).  A response carries its status, the optional
Retry-After header value, whether its body parses as JSON, and, when it
does, the item list under "value", the continuation link, and the raw body
text used for error logging. -/

/-- One HTTP response as seen by `gget_all`. -/
structure Resp where
  status : Nat
  retryAfter : Option String
  jsonOk : Bool
  value : List String
  nextLink : Option String
  text : String
deriving DecidableEq

/-- Model of Python int() on a string: optional surrounding whitespace, an
optional sign, then at least one ASCII digit, single underscores permitted
between digits.  Anything else raises ValueError, modelled as `none`. -/
def pyIntDigits : Nat → List Char → Option Nat
  | acc, [] => some acc
  | acc, '_' :: c :: cs =>
    match digitVal c with
    | some d => pyIntDigits (acc * 10 + d) cs
    | none => none
  | acc, c :: cs =>
    match digitVal c with
    | some d => pyIntDigits (acc * 10 + d) cs
    | none => none

/-- Nonempty digit run with underscores, first character a digit. -/
def pyIntBody (cs : List Char) : Option Nat :=
  match cs with
  | c :: rest =>
    match digitVal c with
    | some d => pyIntDigits d rest
    | none => none
  | [] => none

/-- Whitespace characters stripped by Python int(). -/
def isPySpace (c : Char) : Bool :=
  c = ' ' ∨ c = '\t' ∨ c = '\n' ∨ c = '\r'

/-- Model of Python int(s) for ASCII decimal strings. -/
def pyInt (s : String) : Option Int :=
  let cs := ((s.data.dropWhile isPySpace).reverse.dropWhile isPySpace).reverse
  match cs with
  | '+' :: rest => (pyIntBody rest).map (fun n => (n : Int))
  | '-' :: rest => (pyIntBody rest).map (fun n => -(n : Int))
  | rest => (pyIntBody rest).map (fun n => (n : Int))

/-- The error text logged for a non-throttling 4xx/5xx response: the JSON
body when it parses (modelled by the raw text), else the text truncated to
800 characters. -/
def graphErrorLog (r : Resp) : String :=
  if r.jsonOk then r.text else ⟨r.text.data.take 800⟩

/-- How one run of `gget_all` ends in the trace model. -/
inductive FetchOutcome where
  /-- Normal return with the concatenated item lists. -/
  | ok (items : List String)
  /-- raise_for_status on a non-throttling 4xx/5xx, after logging. -/
  | httpError (status : Nat) (log : String)
  /-- ValueError from int() on a malformed Retry-After header, or from
  time.sleep on a negative wait. -/
  | valueError
  /-- An uncaught exception from r.json() on a sub-400 response. -/
  | jsonError
  /-- The loop would issue a request beyond the modelled trace. -/
  | exhausted
deriving DecidableEq

/-- The request loop of `gget_all`: `acc` accumulates items, `sleeps` the
throttling waits performed so far (in seconds).  A non-429 status of 400 or
more takes the error branch, which prints the body and then calls
r.raise_for_status(); that requests method raises only for statuses in
400-599, so a status of 600 or more is merely logged and the loop falls
through to normal page processing (r.json(), extend, follow nextLink). -/
def gget_go : List Resp → List String → List Int → FetchOutcome × List Int
  | [], _, sleeps => (.exhausted, sleeps)
  | r :: rest, acc, sleeps =>
    if r.status = 429 then
      match pyInt ((r.retryAfter).getD "2") with
      | none => (.valueError, sleeps)
      | some w => if w < 0 then (.valueError, sleeps) else gget_go rest acc (sleeps ++ [w])
    else if 400 ≤ r.status ∧ r.status < 600 then
      (.httpError r.status (graphErrorLog r), sleeps)
    else if r.jsonOk then
      if (r.nextLink.getD "") = "" then (.ok (acc ++ r.value), sleeps)
      else gget_go rest (acc ++ r.value) sleeps
    else (.jsonError, sleeps)

/-- Outcome of `gget_all` on a response trace. -/
def gget_all (trace : List Resp) : FetchOutcome :=
  (gget_go trace [] []).1

/-- The throttling sleeps performed by `gget_all` on a response trace. -/
def gget_sleeps (trace : List Resp) : List Int :=
  (gget_go trace [] []).2

/-- Does a trace make the loop finish normally: every leading 429 carries a
nonnegative-integer (or absent) Retry-After, and the page request
eventually receives a JSON-bodied response whose status is outside the
400-599 range that r.raise_for_status() turns fatal (below 400, or 600 and
above, the latter being logged but still processed as a page), the whole
chain ending at a page with no continuation link. -/
def settlesOk : List Resp → Bool
  | [] => false
  | r :: rest =>
    if r.status = 429 then
      (match pyInt ((r.retryAfter).getD "2") with
       | none => false
       | some w => decide (0 ≤ w)) && settlesOk rest
    else
      decide (r.status < 400 ∨ 600 ≤ r.status) && r.jsonOk &&
        ((r.nextLink.getD "") = "" || settlesOk rest)

/-- A trace describing one uninterrupted successful pagination chain: every
response is sub-400 with a JSON body, all pages but the last carry a
continuation link, and the last page carries none. -/
def cleanChain : List Resp → Bool
  | [] => false
  | [r] => decide (r.status < 400) && r.jsonOk && decide ((r.nextLink.getD "") = "")
  | r :: rest =>
    decide (r.status < 400) && r.jsonOk && decide ((r.nextLink.getD "") ≠ "") &&
      cleanChain rest

/-! ### Model of the role-name resolver and its cache

The mutable module dict `_role_name_by_id` is threaded explicitly as an
association list (later writes shadow earlier entries, as dict writes do).
The per-id network fetch is an oracle from the id to either an exception
(covering request errors and json() decode errors) or a response with a
status and an optional displayName field. -/

/-- Outcome of the per-id roleDefinitions GET. -/
inductive NetResult where
  /-- requests.get or r.json() raised. -/
  | exn : NetResult
  /-- A response with this status; `displayName` is the optional field of
  its JSON body. -/
  | resp (status : Nat) (displayName : Option String) : NetResult
deriving DecidableEq

/-- The role-name cache. -/
abbrev Cache := List (String × String)

/-- Dict lookup in the threaded cache. -/
def cacheFind (c : Cache) (k : String) : Option String :=
  match c with
  | [] => none
  | (k₀, v) :: rest => if k₀ = k then some v else cacheFind rest k

/-- Model of `role_name`: falsy id gives the empty string with no lookup; a
cached id short-circuits; otherwise the per-id fetch is consulted, caching
and returning the displayName (defaulted to the raw id) on a sub-400
response and returning the raw id uncached on any failure. -/
def role_name (net : String → NetResult) (cache : Cache) (rid : Option String) :
    String × Cache :=
  match rid with
  | none => ("", cache)
  | some rdid =>
    if rdid = "" then ("", cache)
    else
      match cacheFind cache rdid with
      | some v => (v, cache)
      | none =>
        match net rdid with
        | .exn => (rdid, cache)
        | .resp status displayName =>
          if status < 400 then
            let name := displayName.getD rdid
            (name, (rdid, name) :: cache)
          else (rdid, cache)

/-- A raw roleDefinition record from the bulk fetch; a missing id raises
KeyError in the dict comprehension of the source. -/
structure RoleDefinitionRecord where
  id : Option String
  displayName : Option String
deriving DecidableEq

/-- Model of `load_all_role_definitions`: `bulk = none` models a raised
bulk fetch (warned and swallowed, cache untouched); on a fetched list the
dict comprehension is built first, so a single missing id aborts the whole
update, else every record is written with its displayName defaulted to the
empty string. -/
def load_all_role_definitions (bulk : Option (List RoleDefinitionRecord))
    (cache : Cache) : Cache :=
  match bulk with
  | none => cache
  | some defs =>
    if defs.all (fun d => d.id.isSome) then
      defs.foldl (fun c d => (d.id.getD "", d.displayName.getD "") :: c) cache
    else cache

/-! ### Helper lemmas -/

theorem isPriv_iff (s : String) : isPriv s = true ↔ s ∈ PRIV_ROLES := by
  simp [isPriv]

theorem inWindow_iff (now : Int) (i : RoleAssignmentScheduleInstance) :
    inWindow now i = true ↔
      ∃ s, _parse_iso i.startDateTime = some s ∧ since_dt now ≤ s := by
  unfold inWindow
  cases h : _parse_iso i.startDateTime with
  | none => simp
  | some s => simp

theorem classifyAssignment_role (resolve upnOf : Option String → String) (keys : List Key)
    (a : RoleAssignment) (rec : PermanentRecord)
    (h : classifyAssignment resolve upnOf keys a = some rec) :
    rec.role = resolve a.roleDefinitionId ∧ isPriv (resolve a.roleDefinitionId) = true := by
  unfold classifyAssignment at h
  by_cases hp : isPriv (resolve a.roleDefinitionId)
  · by_cases hk : (a.principalId, a.roleDefinitionId) ∈ keys
    · simp [hp, hk] at h
    · simp only [hp, hk, if_true, if_false, if_neg hk, Option.some.injEq] at h
      exact ⟨by rw [← h], hp⟩
  · simp [hp] at h

theorem classifyEligibility_role (resolve upnOf : Option String → String) (keys : List Key)
    (e : RoleEligibilitySchedule) (rec : StaleRecord)
    (h : classifyEligibility resolve upnOf keys e = some rec) :
    rec.role = resolve e.roleDefinitionId ∧ isPriv (resolve e.roleDefinitionId) = true := by
  unfold classifyEligibility at h
  by_cases hp : isPriv (resolve e.roleDefinitionId)
  · by_cases hk : (e.principalId, e.roleDefinitionId) ∈ keys
    · simp [hp, hk] at h
    · simp only [hp, hk, if_true, if_false, if_neg hk, Option.some.injEq] at h
      exact ⟨by rw [← h], hp⟩
  · simp [hp] at h

theorem classifyInstance_role (resolve upnOf : Option String → String)
    (i : RoleAssignmentScheduleInstance) (rec : LongActivationRecord)
    (h : classifyInstance resolve upnOf i = some rec) :
    rec.role = resolve i.roleDefinitionId ∧ isPriv (resolve i.roleDefinitionId) = true := by
  unfold classifyInstance at h
  by_cases hp : isPriv (resolve i.roleDefinitionId)
  · refine ⟨?_, hp⟩
    cases hs : i.startDateTime with
    | none => simp [hp, hs] at h
    | some startS =>
      cases he : i.endDateTime with
      | none => simp [hp, hs, he] at h
      | some endS =>
        simp only [hp, hs, he, if_true] at h
        by_cases hne : startS ≠ "" ∧ endS ≠ ""
        · rw [if_pos hne] at h
          cases hps : iso_ts startS with
          | none => simp [hps] at h
          | some s =>
            cases hpe : iso_ts endS with
            | none => simp [hps, hpe] at h
            | some e =>
              simp only [hps, hpe] at h
              by_cases hh : (MAX_ACTIVATION_HOURS : Rat) < hoursOf s e
              · simp only [hh, if_true, Option.some.injEq] at h
                rw [← h]
              · simp [hh] at h
        · simp [hne] at h
  · simp [hp] at h

/-! ### Claim theorems -/

/-- C3: an instance is in the filtered in-window collection iff its
startDateTime parses and the parsed value is at least now - WINDOW_DAYS
(boundary inclusive); instances outside the window are in no key set, the
two key sets coincide, and every downstream list of the run is derived from
the filtered collection. -/
theorem claim_C3 (resolve upnOf : Option String → String) (now : Int) (ts : String)
    (assignments : List RoleAssignment) (eligibles : List RoleEligibilitySchedule)
    (inst_all : List RoleAssignmentScheduleInstance) :
    (∀ i : RoleAssignmentScheduleInstance,
        i ∈ instFilter now inst_all ↔
          i ∈ inst_all ∧ ∃ s, _parse_iso i.startDateTime = some s ∧ since_dt now ≤ s) ∧
    (∀ k : Key,
        k ∈ inst_keys (instFilter now inst_all) ↔
          ∃ i, i ∈ instFilter now inst_all ∧ k = (i.principalId, i.roleDefinitionId)) ∧
    recent_keys (instFilter now inst_all) = inst_keys (instFilter now inst_all) ∧
    (runClassification resolve upnOf now ts assignments eligibles inst_all).long_acts =
      longActsOf resolve upnOf (instFilter now inst_all) ∧
    (runClassification resolve upnOf now ts assignments eligibles inst_all).permanent =
      permanentOf resolve upnOf (inst_keys (instFilter now inst_all)) assignments ∧
    (runClassification resolve upnOf now ts assignments eligibles inst_all).stale =
      staleOf resolve upnOf (recent_keys (instFilter now inst_all)) eligibles := by
  refine ⟨?_, ?_, rfl, rfl, rfl, rfl⟩
  · intro i
    rw [instFilter, List.mem_filter, inWindow_iff]
  · intro k
    simp only [inst_keys, List.mem_map]
    constructor
    · rintro ⟨i, hi, hk⟩
      exact ⟨i, hi, hk.symm⟩
    · rintro ⟨i, hi, hk⟩
      exact ⟨i, hi, hk.symm⟩

/-- C9: the key set of the permanent join and the key set of the stale join
are two identical comprehensions over the same filtered instance list, hence
equal; a key with an in-window instance is therefore skipped by both the
permanent and the stale classification. -/
theorem claim_C9 :
    (∀ inst : List RoleAssignmentScheduleInstance, inst_keys inst = recent_keys inst) ∧
    (∀ (resolve upnOf : Option String → String) (now : Int)
        (inst_all : List RoleAssignmentScheduleInstance) (a : RoleAssignment),
        (a.principalId, a.roleDefinitionId) ∈ inst_keys (instFilter now inst_all) →
        classifyAssignment resolve upnOf (inst_keys (instFilter now inst_all)) a = none) ∧
    (∀ (resolve upnOf : Option String → String) (now : Int)
        (inst_all : List RoleAssignmentScheduleInstance) (e : RoleEligibilitySchedule),
        (e.principalId, e.roleDefinitionId) ∈ recent_keys (instFilter now inst_all) →
        classifyEligibility resolve upnOf (recent_keys (instFilter now inst_all)) e = none) := by
  refine ⟨fun _ => rfl, ?_, ?_⟩
  · intro resolve upnOf now inst_all a hk
    unfold classifyAssignment
    by_cases hp : isPriv (resolve a.roleDefinitionId) <;> simp [hp, hk]
  · intro resolve upnOf now inst_all e hk
    unfold classifyEligibility
    by_cases hp : isPriv (resolve e.roleDefinitionId) <;> simp [hp, hk]

/-- Witness for C9 at a concrete in-window instance: the matching
assignment and eligibility are both skipped. -/
theorem claim_C9_witness :
    classifyAssignment (fun _ => "Global Administrator") (fun _ => "")
      (inst_keys (instFilter 63842256000000000
        [⟨some "p", some "r", some "i1", some "2024-01-15T00:00:00Z", none⟩]))
      ⟨some "p", some "r", some "a1", none⟩ = none ∧
    classifyEligibility (fun _ => "Global Administrator") (fun _ => "")
      (recent_keys (instFilter 63842256000000000
        [⟨some "p", some "r", some "i1", some "2024-01-15T00:00:00Z", none⟩]))
      ⟨some "p", some "r", some "e1", none⟩ = none :=
  ⟨claim_C9.2.1 (fun _ => "Global Administrator") (fun _ => "") 63842256000000000
      [⟨some "p", some "r", some "i1", some "2024-01-15T00:00:00Z", none⟩]
      ⟨some "p", some "r", some "a1", none⟩ (by decide),
   claim_C9.2.2 (fun _ => "Global Administrator") (fun _ => "") 63842256000000000
      [⟨some "p", some "r", some "i1", some "2024-01-15T00:00:00Z", none⟩]
      ⟨some "p", some "r", some "e1", none⟩ (by decide)⟩

/-- C4: a record whose resolved role name is not in the 8-element
PRIV_ROLES set is never classified into the permanent, stale or
long-activation list, and conversely every classified record carries a
privileged role name. -/
theorem claim_C4 :
    (∀ (resolve upnOf : Option String → String) (keys : List Key) (a : RoleAssignment),
        resolve a.roleDefinitionId ∉ PRIV_ROLES →
        classifyAssignment resolve upnOf keys a = none) ∧
    (∀ (resolve upnOf : Option String → String) (keys : List Key)
        (e : RoleEligibilitySchedule),
        resolve e.roleDefinitionId ∉ PRIV_ROLES →
        classifyEligibility resolve upnOf keys e = none) ∧
    (∀ (resolve upnOf : Option String → String) (i : RoleAssignmentScheduleInstance),
        resolve i.roleDefinitionId ∉ PRIV_ROLES →
        classifyInstance resolve upnOf i = none) ∧
    (∀ (resolve upnOf : Option String → String) (now : Int) (ts : String)
        (assignments : List RoleAssignment) (eligibles : List RoleEligibilitySchedule)
        (inst_all : List RoleAssignmentScheduleInstance),
        (∀ rec ∈ (runClassification resolve upnOf now ts assignments eligibles inst_all).permanent,
          rec.role ∈ PRIV_ROLES) ∧
        (∀ rec ∈ (runClassification resolve upnOf now ts assignments eligibles inst_all).stale,
          rec.role ∈ PRIV_ROLES) ∧
        (∀ rec ∈ (runClassification resolve upnOf now ts assignments eligibles inst_all).long_acts,
          rec.role ∈ PRIV_ROLES)) := by
  refine ⟨?_, ?_, ?_, ?_⟩
  · intro resolve upnOf keys a h
    simp [classifyAssignment, isPriv, h]
  · intro resolve upnOf keys e h
    simp [classifyEligibility, isPriv, h]
  · intro resolve upnOf i h
    simp [classifyInstance, isPriv, h]
  · intro resolve upnOf now ts assignments eligibles inst_all
    refine ⟨?_, ?_, ?_⟩
    · intro rec hrec
      simp only [runClassification, permanentOf, List.mem_filterMap] at hrec
      obtain ⟨a, _, hcl⟩ := hrec
      obtain ⟨hrole, hpriv⟩ := classifyAssignment_role _ _ _ _ _ hcl
      rw [hrole]
      exact (isPriv_iff _).mp hpriv
    · intro rec hrec
      simp only [runClassification, staleOf, List.mem_filterMap] at hrec
      obtain ⟨e, _, hcl⟩ := hrec
      obtain ⟨hrole, hpriv⟩ := classifyEligibility_role _ _ _ _ _ hcl
      rw [hrole]
      exact (isPriv_iff _).mp hpriv
    · intro rec hrec
      simp only [runClassification, longActsOf, List.mem_filterMap] at hrec
      obtain ⟨i, _, hcl⟩ := hrec
      obtain ⟨hrole, hpriv⟩ := classifyInstance_role _ _ _ _ hcl
      rw [hrole]
      exact (isPriv_iff _).mp hpriv

/-- Witness for C4 at a concrete non-privileged role name. -/
theorem claim_C4_witness :
    classifyAssignment (fun _ => "User Administrator") (fun _ => "") []
      ⟨some "p", some "r", some "a1", none⟩ = none ∧
    classifyEligibility (fun _ => "User Administrator") (fun _ => "") []
      ⟨some "p", some "r", some "e1", none⟩ = none ∧
    classifyInstance (fun _ => "User Administrator") (fun _ => "")
      ⟨some "p", some "r", some "i1", some "2024-01-01T00:00:00Z",
        some "2024-01-01T09:30:00Z"⟩ = none :=
  ⟨claim_C4.1 (fun _ => "User Administrator") (fun _ => "") []
      ⟨some "p", some "r", some "a1", none⟩ (by decide),
   claim_C4.2.1 (fun _ => "User Administrator") (fun _ => "") []
      ⟨some "p", some "r", some "e1", none⟩ (by decide),
   claim_C4.2.2.1 (fun _ => "User Administrator") (fun _ => "")
      ⟨some "p", some "r", some "i1", some "2024-01-01T00:00:00Z",
        some "2024-01-01T09:30:00Z"⟩ (by decide)⟩

/-- C1: a privileged assignment is classified permanent iff its
(principalId, roleDefinitionId) key is absent from the key set of the
in-window instances; when the key is absent the enriched record is a member
of the permanent list. -/
theorem claim_C1 (resolve upnOf : Option String → String) (now : Int)
    (inst_all : List RoleAssignmentScheduleInstance) (a : RoleAssignment)
    (h : resolve a.roleDefinitionId ∈ PRIV_ROLES) :
    ((∃ rec, classifyAssignment resolve upnOf (inst_keys (instFilter now inst_all)) a =
        some rec) ↔
      (a.principalId, a.roleDefinitionId) ∉ inst_keys (instFilter now inst_all)) ∧
    (∀ assignments : List RoleAssignment, a ∈ assignments →
      (a.principalId, a.roleDefinitionId) ∉ inst_keys (instFilter now inst_all) →
      (⟨a.principalId, upnOf a.principalId, resolve a.roleDefinitionId, a.id,
          a.createdDateTime⟩ : PermanentRecord) ∈
        permanentOf resolve upnOf (inst_keys (instFilter now inst_all)) assignments) := by
  have hp : isPriv (resolve a.roleDefinitionId) = true := (isPriv_iff _).mpr h
  constructor
  · constructor
    · rintro ⟨rec, hrec⟩ hk
      simp [classifyAssignment, hp, hk] at hrec
    · intro hk
      exact ⟨⟨a.principalId, upnOf a.principalId, resolve a.roleDefinitionId, a.id,
        a.createdDateTime⟩, by simp [classifyAssignment, hp, hk]⟩
  · intro assignments ha hk
    exact List.mem_filterMap.mpr ⟨a, ha, by simp [classifyAssignment, hp, hk]⟩

/-- Witness for C1: an assignment for principal p with role resolving to
Global Administrator is classified permanent when the instance list is
empty, and is not classified when a matching in-window instance exists. -/
theorem claim_C1_witness :
    (∃ rec, classifyAssignment (fun _ => "Global Administrator") (fun _ => "")
      (inst_keys (instFilter 63842256000000000 []))
      ⟨some "p", some "r", some "a1", none⟩ = some rec) ∧
    ¬ (∃ rec, classifyAssignment (fun _ => "Global Administrator") (fun _ => "")
      (inst_keys (instFilter 63842256000000000
        [⟨some "p", some "r", some "i1", some "2024-01-15T00:00:00Z", none⟩]))
      ⟨some "p", some "r", some "a1", none⟩ = some rec) :=
  ⟨(claim_C1 (fun _ => "Global Administrator") (fun _ => "") 63842256000000000 []
      ⟨some "p", some "r", some "a1", none⟩ (by decide)).1.mpr (by decide),
   fun hex =>
     absurd ((claim_C1 (fun _ => "Global Administrator") (fun _ => "") 63842256000000000
        [⟨some "p", some "r", some "i1", some "2024-01-15T00:00:00Z", none⟩]
        ⟨some "p", some "r", some "a1", none⟩ (by decide)).1.mp hex) (by decide)⟩

theorem permanentOf_length_le (resolve upnOf : Option String → String) (keys : List Key)
    (assignments : List RoleAssignment) :
    (permanentOf resolve upnOf keys assignments).length ≤
      countPrivAssignments resolve assignments := by
  induction assignments with
  | nil => simp [permanentOf, countPrivAssignments]
  | cons a l ih =>
    unfold permanentOf countPrivAssignments at ih ⊢
    rw [List.filterMap_cons, List.filter_cons]
    cases hc : classifyAssignment resolve upnOf keys a with
    | none =>
      cases hp : isPriv (resolve a.roleDefinitionId) with
      | true =>
        simp only [hp, if_true, List.length_cons]
        exact Nat.le_succ_of_le ih
      | false =>
        simp only [hp, if_false]
        exact ih
    | some rec =>
      have hp := (classifyAssignment_role _ _ _ _ _ hc).2
      simp only [hp, if_true, List.length_cons]
      exact Nat.succ_le_succ ih

/-- C5: the metrics field active_privileged_assignments recounts all
privileged assignments, the permanent count is the permanent list length,
the permanent count never exceeds the recount, and the two counts can
differ. -/
theorem claim_C5 (resolve upnOf : Option String → String) (now : Int) (ts : String)
    (assignments : List RoleAssignment) (eligibles : List RoleEligibilitySchedule)
    (inst_all : List RoleAssignmentScheduleInstance) :
    (runClassification resolve upnOf now ts assignments eligibles
        inst_all).metrics.active_privileged_assignments =
      countPrivAssignments resolve assignments ∧
    (runClassification resolve upnOf now ts assignments eligibles
        inst_all).metrics.permanent_privileged_assignments =
      (permanentOf resolve upnOf (inst_keys (instFilter now inst_all)) assignments).length ∧
    (runClassification resolve upnOf now ts assignments eligibles
        inst_all).metrics.permanent_privileged_assignments ≤
      (runClassification resolve upnOf now ts assignments eligibles
        inst_all).metrics.active_privileged_assignments ∧
    (∃ (r₂ u₂ : Option String → String) (n₂ : Int) (t₂ : String)
        (asg₂ : List RoleAssignment) (elig₂ : List RoleEligibilitySchedule)
        (ia₂ : List RoleAssignmentScheduleInstance),
      (runClassification r₂ u₂ n₂ t₂ asg₂ elig₂
          ia₂).metrics.permanent_privileged_assignments <
        (runClassification r₂ u₂ n₂ t₂ asg₂ elig₂
          ia₂).metrics.active_privileged_assignments) := by
  refine ⟨rfl, rfl, permanentOf_length_le resolve upnOf _ assignments, ?_⟩
  exact ⟨fun _ => "Global Administrator", fun _ => "", 63842256000000000, "ts",
    [⟨some "p", some "r", some "a1", none⟩], [],
    [⟨some "p", some "r", some "i1", some "2024-01-15T00:00:00Z", none⟩], by decide⟩

/-- C2: an in-window privileged instance with both timestamps parseable is
classified as a long activation iff its duration in fractional hours
strictly exceeds MAX_ACTIVATION_HOURS = 8, the classified record retaining
the duration rounded to two decimals; missing or unparsable timestamps make
the instance silently skip (the classification returns none rather than
aborting). -/
theorem claim_C2 (resolve upnOf : Option String → String)
    (i : RoleAssignmentScheduleInstance) :
    (∀ (startS endS : String) (s e : Int),
      resolve i.roleDefinitionId ∈ PRIV_ROLES →
      i.startDateTime = some startS → i.endDateTime = some endS →
      startS ≠ "" → endS ≠ "" →
      iso_ts startS = some s → iso_ts endS = some e →
      ((∃ rec, classifyInstance resolve upnOf i = some rec) ↔
        (MAX_ACTIVATION_HOURS : Rat) < hoursOf s e) ∧
      (∀ rec, classifyInstance resolve upnOf i = some rec →
        rec.hours = round2 (hoursOf s e))) ∧
    ((¬ ∃ (startS endS : String) (s e : Int),
        i.startDateTime = some startS ∧ i.endDateTime = some endS ∧
        startS ≠ "" ∧ endS ≠ "" ∧ iso_ts startS = some s ∧ iso_ts endS = some e) →
      classifyInstance resolve upnOf i = none) := by
  constructor
  · intro startS endS s e hr hs he hne₁ hne₂ hps hpe
    have hp : isPriv (resolve i.roleDefinitionId) = true := (isPriv_iff _).mpr hr
    have hcl : classifyInstance resolve upnOf i =
        if (MAX_ACTIVATION_HOURS : Rat) < hoursOf s e then
          some ⟨i.principalId, upnOf i.principalId, resolve i.roleDefinitionId, i.id,
            startS, endS, round2 (hoursOf s e)⟩
        else none := by
      simp only [classifyInstance, hp, if_true, hs, he]
      rw [if_pos (show startS ≠ "" ∧ endS ≠ "" from ⟨hne₁, hne₂⟩)]
      simp only [hps, hpe]
    constructor
    · by_cases hh : (MAX_ACTIVATION_HOURS : Rat) < hoursOf s e
      · simp [hcl, hh]
      · simp [hcl, hh]
    · intro rec hrec
      by_cases hh : (MAX_ACTIVATION_HOURS : Rat) < hoursOf s e
      · rw [hcl, if_pos hh] at hrec
        cases hrec
        rfl
      · rw [hcl, if_neg hh] at hrec
        cases hrec
  · intro hno
    by_cases hp : isPriv (resolve i.roleDefinitionId)
    · simp only [classifyInstance, hp, if_true]
      cases hs : i.startDateTime with
      | none => simp
      | some startS =>
        cases he : i.endDateTime with
        | none => simp
        | some endS =>
          simp only
          by_cases hne : startS ≠ "" ∧ endS ≠ ""
          · rw [if_pos hne]
            cases hps : iso_ts startS with
            | none => simp
            | some s =>
              cases hpe : iso_ts endS with
              | none => simp
              | some e =>
                exact absurd ⟨startS, endS, s, e, hs, he, hne.1, hne.2, hps, hpe⟩ hno
          · rw [if_neg hne]
    · simp [classifyInstance, hp]

/-- Witness for C2: start 2024-01-01T00:00:00Z and end 2024-01-01T09:30:00Z
give a duration of 9.5 hours, which is classified and retained as 9.5. -/
theorem claim_C2_witness :
    ∃ rec, classifyInstance (fun _ => "Global Administrator") (fun _ => "")
      ⟨some "p", some "r", some "i1", some "2024-01-01T00:00:00Z",
        some "2024-01-01T09:30:00Z"⟩ = some rec ∧ rec.hours = 19 / 2 := by
  obtain ⟨hiff, hhours⟩ := (claim_C2 (fun _ => "Global Administrator") (fun _ => "")
      ⟨some "p", some "r", some "i1", some "2024-01-01T00:00:00Z",
        some "2024-01-01T09:30:00Z"⟩).1 "2024-01-01T00:00:00Z" "2024-01-01T09:30:00Z"
      63839664000000000 63839698200000000 (by decide) rfl rfl (by decide) (by decide)
      (by decide) (by decide)
  obtain ⟨rec, hrec⟩ := hiff.mpr (by norm_num [hoursOf, MAX_ACTIVATION_HOURS])
  refine ⟨rec, hrec, ?_⟩
  rw [hhours rec hrec]
  norm_num [round2, roundHalfEven, hoursOf]

theorem filterMap_congr_mem {α β : Type} (f g : α → Option β) (l : List α)
    (h : ∀ a ∈ l, f a = g a) : l.filterMap f = l.filterMap g := by
  induction l with
  | nil => rfl
  | cons a t ih =>
    rw [List.filterMap_cons, List.filterMap_cons, h a (List.mem_cons_self a t),
      ih (fun x hx => h x (List.mem_cons_of_mem a hx))]

theorem filter_congr_mem {α : Type} (p q : α → Bool) (l : List α)
    (h : ∀ a ∈ l, p a = q a) : l.filter p = l.filter q := by
  induction l with
  | nil => rfl
  | cons a t ih =>
    rw [List.filter_cons, List.filter_cons, h a (List.mem_cons_self a t),
      ih (fun x hx => h x (List.mem_cons_of_mem a hx))]

theorem classifyAssignment_congr (r₁ r₂ u₁ u₂ : Option String → String) (keys : List Key)
    (a : RoleAssignment) (hr : r₁ a.roleDefinitionId = r₂ a.roleDefinitionId)
    (hu : u₁ a.principalId = u₂ a.principalId) :
    classifyAssignment r₁ u₁ keys a = classifyAssignment r₂ u₂ keys a := by
  simp only [classifyAssignment, hr, hu]

theorem classifyEligibility_congr (r₁ r₂ u₁ u₂ : Option String → String) (keys : List Key)
    (e : RoleEligibilitySchedule) (hr : r₁ e.roleDefinitionId = r₂ e.roleDefinitionId)
    (hu : u₁ e.principalId = u₂ e.principalId) :
    classifyEligibility r₁ u₁ keys e = classifyEligibility r₂ u₂ keys e := by
  simp only [classifyEligibility, hr, hu]

theorem classifyInstance_congr (r₁ r₂ u₁ u₂ : Option String → String)
    (i : RoleAssignmentScheduleInstance) (hr : r₁ i.roleDefinitionId = r₂ i.roleDefinitionId)
    (hu : u₁ i.principalId = u₂ i.principalId) :
    classifyInstance r₁ u₁ i = classifyInstance r₂ u₂ i := by
  simp only [classifyInstance, hr, hu]

/-- C6: classification is deterministic: two runs over the same snapshot of
the three collections, the same reference time, and role-name/UPN
resolutions that agree on every record of the snapshot produce identical
violation lists and identical metrics apart from the run timestamp. -/
theorem claim_C6 (r₁ r₂ u₁ u₂ : Option String → String) (now : Int) (ts₁ ts₂ : String)
    (assignments : List RoleAssignment) (eligibles : List RoleEligibilitySchedule)
    (inst_all : List RoleAssignmentScheduleInstance)
    (hA : ∀ a ∈ assignments, r₁ a.roleDefinitionId = r₂ a.roleDefinitionId ∧
      u₁ a.principalId = u₂ a.principalId)
    (hE : ∀ e ∈ eligibles, r₁ e.roleDefinitionId = r₂ e.roleDefinitionId ∧
      u₁ e.principalId = u₂ e.principalId)
    (hI : ∀ i ∈ inst_all, r₁ i.roleDefinitionId = r₂ i.roleDefinitionId ∧
      u₁ i.principalId = u₂ i.principalId) :
    (runClassification r₁ u₁ now ts₁ assignments eligibles inst_all).permanent =
      (runClassification r₂ u₂ now ts₂ assignments eligibles inst_all).permanent ∧
    (runClassification r₁ u₁ now ts₁ assignments eligibles inst_all).stale =
      (runClassification r₂ u₂ now ts₂ assignments eligibles inst_all).stale ∧
    (runClassification r₁ u₁ now ts₁ assignments eligibles inst_all).long_acts =
      (runClassification r₂ u₂ now ts₂ assignments eligibles inst_all).long_acts ∧
    metricsBody (runClassification r₁ u₁ now ts₁ assignments eligibles inst_all).metrics =
      metricsBody (runClassification r₂ u₂ now ts₂ assignments eligibles inst_all).metrics := by
  have hperm : permanentOf r₁ u₁ (inst_keys (instFilter now inst_all)) assignments =
      permanentOf r₂ u₂ (inst_keys (instFilter now inst_all)) assignments :=
    filterMap_congr_mem _ _ _ (fun a ha =>
      classifyAssignment_congr r₁ r₂ u₁ u₂ _ a (hA a ha).1 (hA a ha).2)
  have hstale : staleOf r₁ u₁ (recent_keys (instFilter now inst_all)) eligibles =
      staleOf r₂ u₂ (recent_keys (instFilter now inst_all)) eligibles :=
    filterMap_congr_mem _ _ _ (fun e he =>
      classifyEligibility_congr r₁ r₂ u₁ u₂ _ e (hE e he).1 (hE e he).2)
  have hlong : longActsOf r₁ u₁ (instFilter now inst_all) =
      longActsOf r₂ u₂ (instFilter now inst_all) :=
    filterMap_congr_mem _ _ _ (fun i hi =>
      have hi' : i ∈ inst_all := (List.mem_filter.mp hi).1
      classifyInstance_congr r₁ r₂ u₁ u₂ i (hI i hi').1 (hI i hi').2)
  have hcA : countPrivAssignments r₁ assignments = countPrivAssignments r₂ assignments := by
    unfold countPrivAssignments
    rw [filter_congr_mem _ _ _ (fun a ha => by rw [(hA a ha).1])]
  have hcE : countPrivEligibles r₁ eligibles = countPrivEligibles r₂ eligibles := by
    unfold countPrivEligibles
    rw [filter_congr_mem _ _ _ (fun e he => by rw [(hE e he).1])]
  refine ⟨hperm, hstale, hlong, ?_⟩
  simp only [runClassification, metricsBody]
  rw [hperm, hstale, hlong, hcA, hcE]

/-- Witness for C6 at a concrete snapshot with two distinct run
timestamps. -/
theorem claim_C6_witness :
    (runClassification (fun _ => "Global Administrator") (fun _ => "") 63842256000000000
      "t1" [⟨some "p", some "r", some "a1", none⟩] [⟨some "p", some "r", some "e1", none⟩]
      [⟨some "p", some "r", some "i1", some "2024-01-15T00:00:00Z", none⟩]).permanent =
    (runClassification (fun _ => "Global Administrator") (fun _ => "") 63842256000000000
      "t2" [⟨some "p", some "r", some "a1", none⟩] [⟨some "p", some "r", some "e1", none⟩]
      [⟨some "p", some "r", some "i1", some "2024-01-15T00:00:00Z", none⟩]).permanent ∧
    metricsBody (runClassification (fun _ => "Global Administrator") (fun _ => "")
      63842256000000000 "t1" [⟨some "p", some "r", some "a1", none⟩]
      [⟨some "p", some "r", some "e1", none⟩]
      [⟨some "p", some "r", some "i1", some "2024-01-15T00:00:00Z", none⟩]).metrics =
    metricsBody (runClassification (fun _ => "Global Administrator") (fun _ => "")
      63842256000000000 "t2" [⟨some "p", some "r", some "a1", none⟩]
      [⟨some "p", some "r", some "e1", none⟩]
      [⟨some "p", some "r", some "i1", some "2024-01-15T00:00:00Z", none⟩]).metrics := by
  have h := claim_C6 (fun _ => "Global Administrator") (fun _ => "Global Administrator")
    (fun _ => "") (fun _ => "") 63842256000000000 "t1" "t2"
    [⟨some "p", some "r", some "a1", none⟩] [⟨some "p", some "r", some "e1", none⟩]
    [⟨some "p", some "r", some "i1", some "2024-01-15T00:00:00Z", none⟩]
    (fun _ _ => ⟨rfl, rfl⟩) (fun _ _ => ⟨rfl, rfl⟩) (fun _ _ => ⟨rfl, rfl⟩)
  exact ⟨h.1, h.2.2.2⟩

theorem role_name_failure (net : String → NetResult) (cache : Cache) (rdid : String)
    (h₁ : rdid ≠ "") (h₂ : cacheFind cache rdid = none)
    (h₃ : net rdid = .exn ∨ ∃ st dn, net rdid = .resp st dn ∧ 400 ≤ st) :
    role_name net cache (some rdid) = (rdid, cache) := by
  simp only [role_name]
  rw [if_neg h₁]
  rcases h₃ with h | ⟨st, dn, hr, hst⟩
  · simp only [h₂, h]
  · simp only [h₂, hr]
    rw [if_neg (by omega : ¬ st < 400)]

theorem role_name_cached (net : String → NetResult) (cache : Cache) (rdid v : String)
    (h₁ : rdid ≠ "") (h₂ : cacheFind cache rdid = some v) :
    role_name net cache (some rdid) = (v, cache) := by
  simp only [role_name]
  rw [if_neg h₁, h₂]

/-- C8: the role-name resolver returns on every path: a falsy id gives the
empty string without consulting the network, a cached id gives the cached
name, a cache miss with a failed fetch gives the raw id as fallback, and an
assignment whose role resolves to such a raw id is still classified
permanent when that fallback name is privileged and its key has no
in-window instance. -/
theorem claim_C8 :
    (∀ (net : String → NetResult) (cache : Cache),
      role_name net cache none = ("", cache) ∧
      role_name net cache (some "") = ("", cache)) ∧
    (∀ (net net₂ : String → NetResult) (cache : Cache) (rid : Option String),
      rid = none ∨ rid = some "" →
      role_name net cache rid = role_name net₂ cache rid) ∧
    (∀ (net : String → NetResult) (cache : Cache) (rdid v : String),
      rdid ≠ "" → cacheFind cache rdid = some v →
      role_name net cache (some rdid) = (v, cache)) ∧
    (∀ (net : String → NetResult) (cache : Cache) (rdid : String),
      rdid ≠ "" → cacheFind cache rdid = none →
      (net rdid = .exn ∨ ∃ st dn, net rdid = .resp st dn ∧ 400 ≤ st) →
      role_name net cache (some rdid) = (rdid, cache)) ∧
    (∀ (net : String → NetResult) (cache : Cache) (upnOf : Option String → String)
        (keys : List Key) (a : RoleAssignment) (rdid : String),
      a.roleDefinitionId = some rdid → rdid ≠ "" →
      cacheFind cache rdid = none →
      (net rdid = .exn ∨ ∃ st dn, net rdid = .resp st dn ∧ 400 ≤ st) →
      rdid ∈ PRIV_ROLES →
      (a.principalId, a.roleDefinitionId) ∉ keys →
      classifyAssignment (fun r => (role_name net cache r).1) upnOf keys a =
        some ⟨a.principalId, upnOf a.principalId, rdid, a.id, a.createdDateTime⟩) := by
  refine ⟨fun net cache => ⟨rfl, rfl⟩, ?_, role_name_cached, role_name_failure, ?_⟩
  · rintro net net₂ cache rid (rfl | rfl) <;> rfl
  · intro net cache upnOf keys a rdid ha h₁ h₂ h₃ hm hk
    have hres : (role_name net cache a.roleDefinitionId).1 = rdid := by
      rw [ha, role_name_failure net cache rdid h₁ h₂ h₃]
    simp only [classifyAssignment, hres, (isPriv_iff rdid).mpr hm, if_true]
    rw [if_neg hk]

/-- Witness for C8: with a permanently failing per-id fetch, the raw id is
returned as the role name, and an assignment whose raw roleDefinitionId is
itself a privileged display name is still classified. -/
theorem claim_C8_witness :
    role_name (fun _ => .exn) [] (some "Global Administrator") =
      ("Global Administrator", []) ∧
    classifyAssignment (fun r => (role_name (fun _ => .exn) [] r).1) (fun _ => "") []
      ⟨some "p", some "Global Administrator", some "a1", none⟩ =
      some ⟨some "p", "", "Global Administrator", some "a1", none⟩ :=
  ⟨claim_C8.2.2.2.1 (fun _ => .exn) [] "Global Administrator" (by decide) rfl
      (Or.inl rfl),
   claim_C8.2.2.2.2 (fun _ => .exn) [] (fun _ => "") []
      ⟨some "p", some "Global Administrator", some "a1", none⟩ "Global Administrator"
      rfl (by decide) rfl (Or.inl rfl) (by decide) (by decide)⟩

theorem cacheFind_load_bulk (defs : List RoleDefinitionRecord) (cache : Cache)
    (k v : String)
    (h : cacheFind
      (defs.foldl (fun c d => (d.id.getD "", d.displayName.getD "") :: c) cache) k =
      some v) :
    (∃ d ∈ defs, d.id.getD "" = k ∧ v = d.displayName.getD "") ∨
      cacheFind cache k = some v := by
  induction defs generalizing cache with
  | nil => exact Or.inr h
  | cons d ds ih =>
    rw [List.foldl_cons] at h
    rcases ih _ h with hd | hc
    · obtain ⟨d', hd', h₁, h₂⟩ := hd
      exact Or.inl ⟨d', List.mem_cons_of_mem d hd', h₁, h₂⟩
    · simp only [cacheFind] at hc
      by_cases hk : d.id.getD "" = k
      · rw [if_pos hk] at hc
        exact Or.inl ⟨d, List.mem_cons_self d ds, hk, (Option.some_inj.mp hc).symm⟩
      · rw [if_neg hk] at hc
        exact Or.inr hc

/-- C10: the role-name cache is written only from successful lookups: the
per-id path writes exactly on a sub-400 response, a failed per-id fetch
leaves the cache untouched so a later call retries and can succeed, a
cached id is answered from the cache independently of the network, the bulk
preload leaves the cache untouched on a failed or malformed fetch, and
every entry of the preloaded cache comes from the old cache or from a
fetched definition. -/
theorem claim_C10 :
    (∀ (net : String → NetResult) (cache : Cache) (rid : Option String) (v : String)
        (c' : Cache),
      role_name net cache rid = (v, c') →
      c' = cache ∨ ∃ rdid st dn, rid = some rdid ∧ net rdid = .resp st dn ∧ st < 400 ∧
        cacheFind cache rdid = none ∧ v = dn.getD rdid ∧ c' = (rdid, v) :: cache) ∧
    (∀ (net net₂ : String → NetResult) (cache : Cache) (rdid nm : String),
      rdid ≠ "" → cacheFind cache rdid = none →
      (net rdid = .exn ∨ ∃ st dn, net rdid = .resp st dn ∧ 400 ≤ st) →
      net₂ rdid = .resp 200 (some nm) →
      (role_name net cache (some rdid)).2 = cache ∧
      role_name net₂ (role_name net cache (some rdid)).2 (some rdid) =
        (nm, (rdid, nm) :: cache)) ∧
    (∀ (net net₂ : String → NetResult) (cache : Cache) (rdid v : String),
      rdid ≠ "" → cacheFind cache rdid = some v →
      role_name net cache (some rdid) = (v, cache) ∧
      role_name net cache (some rdid) = role_name net₂ cache (some rdid)) ∧
    (∀ cache : Cache, load_all_role_definitions none cache = cache) ∧
    (∀ (defs : List RoleDefinitionRecord) (cache : Cache),
      (∃ d ∈ defs, d.id = none) →
      load_all_role_definitions (some defs) cache = cache) ∧
    (∀ (defs : List RoleDefinitionRecord) (cache : Cache) (k v : String),
      cacheFind (load_all_role_definitions (some defs) cache) k = some v →
      cacheFind cache k = some v ∨
        ∃ d ∈ defs, d.id.getD "" = k ∧ v = d.displayName.getD "") := by
  refine ⟨?_, ?_, ?_, fun _ => rfl, ?_, ?_⟩
  · intro net cache rid v c' h
    cases rid with
    | none =>
      simp only [role_name] at h
      exact Or.inl (congrArg Prod.snd h).symm
    | some rdid =>
      simp only [role_name] at h
      by_cases h₁ : rdid = ""
      · rw [if_pos h₁] at h
        exact Or.inl (congrArg Prod.snd h).symm
      · rw [if_neg h₁] at h
        cases h₂ : cacheFind cache rdid with
        | some w =>
          simp only [h₂] at h
          exact Or.inl (congrArg Prod.snd h).symm
        | none =>
          simp only [h₂] at h
          cases h₃ : net rdid with
          | exn =>
            simp only [h₃] at h
            exact Or.inl (congrArg Prod.snd h).symm
          | resp st dn =>
            simp only [h₃] at h
            by_cases hst : st < 400
            · rw [if_pos hst] at h
              have hv : v = dn.getD rdid := (congrArg Prod.fst h).symm
              refine Or.inr ⟨rdid, st, dn, rfl, h₃, hst, h₂, hv, ?_⟩
              rw [hv]
              exact (congrArg Prod.snd h).symm
            · rw [if_neg hst] at h
              exact Or.inl (congrArg Prod.snd h).symm
  · intro net net₂ cache rdid nm h₁ h₂ h₃ h₄
    rw [role_name_failure net cache rdid h₁ h₂ h₃]
    refine ⟨rfl, ?_⟩
    simp only [role_name]
    rw [if_neg h₁]
    simp only [h₂, h₄]
    rw [if_pos (by omega : (200 : Nat) < 400)]
    rfl
  · intro net net₂ cache rdid v h₁ h₂
    rw [role_name_cached net cache rdid v h₁ h₂, role_name_cached net₂ cache rdid v h₁ h₂]
    exact ⟨rfl, rfl⟩
  · intro defs cache h
    simp only [load_all_role_definitions]
    rw [if_neg]
    intro hall
    obtain ⟨d, hd, hid⟩ := h
    have := List.all_eq_true.mp hall d hd
    rw [hid] at this
    exact absurd this (by simp)
  · intro defs cache k v h
    simp only [load_all_role_definitions] at h
    by_cases hall : defs.all (fun d => d.id.isSome)
    · rw [if_pos hall] at h
      rcases cacheFind_load_bulk defs cache k v h with hd | hc
      · exact Or.inr hd
      · exact Or.inl hc
    · rw [if_neg hall] at h
      exact Or.inl h

/-- Witness for C10: a failed fetch leaves the cache empty and a later
successful fetch for the same id caches its display name; a cached id is
answered from the cache; a malformed bulk payload leaves the cache
untouched; a preloaded entry is traced back to its definition record. -/
theorem claim_C10_witness :
    ((role_name (fun _ => .exn) [] (some "r1")).2 = [] ∧
      role_name (fun _ => .resp 200 (some "Security Administrator"))
        ((role_name (fun _ => .exn) [] (some "r1")).2) (some "r1") =
        ("Security Administrator", [("r1", "Security Administrator")])) ∧
    role_name (fun _ => .exn) [("r1", "Nm")] (some "r1") = ("Nm", [("r1", "Nm")]) ∧
    load_all_role_definitions (some [⟨none, some "X"⟩]) [("a", "b")] = [("a", "b")] ∧
    (cacheFind [("a", "b")] "r2" = some "Nm" ∨
      ∃ d ∈ [(⟨some "r2", some "Nm"⟩ : RoleDefinitionRecord)],
        d.id.getD "" = "r2" ∧ "Nm" = d.displayName.getD "") :=
  ⟨claim_C10.2.1 (fun _ => .exn) (fun _ => .resp 200 (some "Security Administrator"))
      [] "r1" "Security Administrator" (by decide) rfl (Or.inl rfl) rfl,
   (claim_C10.2.2.1 (fun _ => .exn) (fun _ => .exn) [("r1", "Nm")] "r1" "Nm"
      (by decide) (by decide)).1,
   claim_C10.2.2.2.2.1 [⟨none, some "X"⟩] [("a", "b")]
      ⟨⟨none, some "X"⟩, List.mem_cons_self _ _, rfl⟩,
   claim_C10.2.2.2.2.2 [⟨some "r2", some "Nm"⟩] [("a", "b")] "r2" "Nm" (by decide)⟩

theorem gget_go_ok_iff (trace : List Resp) : ∀ (acc : List String) (sleeps : List Int),
    (∃ items s, gget_go trace acc sleeps = (.ok items, s)) ↔ settlesOk trace = true := by
  induction trace with
  | nil =>
    intro acc sleeps
    simp [gget_go, settlesOk]
  | cons r rest ih =>
    intro acc sleeps
    by_cases h429 : r.status = 429
    · cases hpy : pyInt ((r.retryAfter).getD "2") with
      | none => simp [gget_go, settlesOk, h429, hpy]
      | some w =>
        by_cases hw : w < 0
        · simp [gget_go, settlesOk, h429, hpy, hw, show ¬ (0 ≤ w) by omega]
        · have hgo : gget_go (r :: rest) acc sleeps = gget_go rest acc (sleeps ++ [w]) := by
            rw [gget_go]
            simp only [hpy]
            rw [if_pos h429, if_neg hw]
          have hso : settlesOk (r :: rest) = settlesOk rest := by
            rw [settlesOk]
            simp only [hpy]
            rw [if_pos h429, decide_eq_true (by omega : (0 : Int) ≤ w)]
            simp
          rw [hgo, hso]
          exact ih acc (sleeps ++ [w])
    · by_cases hfat : 400 ≤ r.status ∧ r.status < 600
      · simp [gget_go, settlesOk, h429, hfat,
          show ¬ (r.status < 400 ∨ 600 ≤ r.status) by omega]
      · have hok : r.status < 400 ∨ 600 ≤ r.status := by omega
        by_cases hjson : r.jsonOk
        · by_cases hnl : (r.nextLink.getD "") = ""
          · simp [gget_go, settlesOk, h429, hfat, hok, hjson, hnl]
          · have hgo : gget_go (r :: rest) acc sleeps =
                gget_go rest (acc ++ r.value) sleeps := by
              rw [gget_go]
              rw [if_neg h429, if_neg hfat, if_pos hjson, if_neg hnl]
            have hso : settlesOk (r :: rest) = settlesOk rest := by
              rw [settlesOk]
              rw [if_neg h429, decide_eq_true hok, hjson, decide_eq_false hnl]
              simp
            rw [hgo, hso]
            exact ih (acc ++ r.value) sleeps
        · simp [gget_go, settlesOk, h429, hfat, hjson]

theorem gget_go_clean (trace : List Resp) : ∀ (acc : List String) (sleeps : List Int),
    cleanChain trace = true →
    gget_go trace acc sleeps = (.ok (acc ++ (trace.map Resp.value).flatten), sleeps) := by
  induction trace with
  | nil =>
    intro acc sleeps h
    simp [cleanChain] at h
  | cons r rest ih =>
    intro acc sleeps h
    cases rest with
    | nil =>
      simp only [cleanChain, Bool.and_eq_true, decide_eq_true_eq] at h
      obtain ⟨⟨h₁, h₂⟩, h₃⟩ := h
      rw [gget_go]
      rw [if_neg (by omega : ¬ r.status = 429),
        if_neg (by omega : ¬ (400 ≤ r.status ∧ r.status < 600)), if_pos h₂, if_pos h₃]
      simp
    | cons r₂ rest₂ =>
      simp only [cleanChain, Bool.and_eq_true, decide_eq_true_eq] at h
      obtain ⟨⟨⟨h₁, h₂⟩, h₃⟩, h₄⟩ := h
      rw [gget_go]
      rw [if_neg (by omega : ¬ r.status = 429),
        if_neg (by omega : ¬ (400 ≤ r.status ∧ r.status < 600)), if_pos h₂, if_neg h₃]
      rw [ih (acc ++ r.value) sleeps h₄]
      simp

/-- C7 (amended): the paginated fetch returns normally iff every page
request eventually receives a JSON-decodable response whose status is
outside the fatal 400-599 range of raise_for_status (below 400, or 600 and
above), with every intervening 429 carrying an absent or
nonnegative-integer Retry-After; on such a 429 it sleeps the Retry-After
interval (2 when the header is absent) and retries the same page; on a
non-throttling status in 400-599 it stops with a fatal error carrying the
logged body (JSON, else text truncated to 800 characters); a status of 600
or more is logged but processed as a normal page; on success it returns
the concatenation of the page item lists in page order. -/
theorem claim_C7 :
    (∀ trace : List Resp,
      (∃ items, gget_all trace = .ok items) ↔ settlesOk trace = true) ∧
    (∀ (r : Resp) (rest : List Resp) (acc : List String) (sleeps : List Int) (w : Int),
      r.status = 429 → pyInt ((r.retryAfter).getD "2") = some w → 0 ≤ w →
      gget_go (r :: rest) acc sleeps = gget_go rest acc (sleeps ++ [w])) ∧
    (∀ r : Resp, r.retryAfter = none → pyInt ((r.retryAfter).getD "2") = some 2) ∧
    (∀ (r : Resp) (rest : List Resp) (acc : List String) (sleeps : List Int),
      r.status ≠ 429 → 400 ≤ r.status → r.status < 600 →
      gget_go (r :: rest) acc sleeps = (.httpError r.status (graphErrorLog r), sleeps)) ∧
    (∀ (r : Resp) (rest : List Resp) (acc : List String) (sleeps : List Int),
      600 ≤ r.status → r.jsonOk = true → (r.nextLink.getD "") = "" →
      gget_go (r :: rest) acc sleeps = (.ok (acc ++ r.value), sleeps)) ∧
    (∀ r : Resp, graphErrorLog r = if r.jsonOk then r.text else ⟨r.text.data.take 800⟩) ∧
    (∀ trace : List Resp, cleanChain trace = true →
      gget_all trace = .ok (trace.map Resp.value).flatten) := by
  refine ⟨?_, ?_, ?_, ?_, ?_, fun _ => rfl, ?_⟩
  · intro trace
    rw [← gget_go_ok_iff trace [] []]
    constructor
    · rintro ⟨items, h⟩
      exact ⟨items, (gget_go trace [] []).2, by rw [gget_all] at h; rw [← h]⟩
    · rintro ⟨items, s, h⟩
      exact ⟨items, by rw [gget_all, h]⟩
  · intro r rest acc sleeps w h429 hpy hw
    rw [gget_go]
    simp only [hpy]
    rw [if_pos h429, if_neg (by omega : ¬ w < 0)]
  · intro r hnone
    rw [hnone]
    decide
  · intro r rest acc sleeps h429 h400 h600
    rw [gget_go]
    rw [if_neg h429, if_pos (show 400 ≤ r.status ∧ r.status < 600 from ⟨h400, h600⟩)]
  · intro r rest acc sleeps h600 hjson hnl
    rw [gget_go]
    rw [if_neg (by omega : ¬ r.status = 429),
      if_neg (by omega : ¬ (400 ≤ r.status ∧ r.status < 600)), if_pos hjson, if_pos hnl]
  · intro trace h
    rw [gget_all, gget_go_clean trace [] [] h]
    simp

/-- Witness for C7: a two-page fetch with one throttle in between returns
both pages in order and sleeps the default 2 seconds; a clean single page
returns its items; a 600-status JSON page is processed, not fatal. -/
theorem claim_C7_witness :
    (∃ items, gget_all
      [⟨200, none, true, ["a"], some "next", ""⟩,
       ⟨429, none, true, [], none, ""⟩,
       ⟨200, none, true, ["b"], none, ""⟩] = .ok items) ∧
    gget_go [⟨429, none, true, [], none, ""⟩] ([] : List String) ([] : List Int) =
      gget_go [] [] [2] ∧
    gget_go [⟨600, none, true, ["x"], none, "body"⟩] ([] : List String) ([] : List Int) =
      (.ok ["x"], []) ∧
    gget_all [⟨200, none, true, ["a", "b"], none, "ok"⟩] = .ok ["a", "b"] :=
  ⟨(claim_C7.1 _).mpr (by decide),
   claim_C7.2.1 ⟨429, none, true, [], none, ""⟩ [] [] [] 2 rfl (by decide) (by decide),
   claim_C7.2.2.2.2.1 ⟨600, none, true, ["x"], none, "body"⟩ [] [] [] (by decide) rfl
     (by decide),
   by
    have h := claim_C7.2.2.2.2.2.2 [⟨200, none, true, ["a", "b"], none, "ok"⟩] (by decide)
    simpa using h⟩

/-- Counterexample for C7 as frozen, in both directions of its iff: on a
trace whose only responses are a throttling 429 (whose Retry-After value
"soon" is not an integer) followed by a clean sub-400 page, the fetch does
not return normally but dies with a ValueError, so it can fail due to
throttling even though the page request eventually receives a status below
400; and on a single JSON page with status 600 the fetch returns normally
although no page request ever receives a status below 400, because
raise_for_status raises only for 400-599. -/
theorem claim_C7_counterexample :
    gget_all [⟨429, some "soon", true, [], none, ""⟩,
      ⟨200, none, true, ["item"], none, "ok"⟩] = .valueError ∧
    (∀ r ∈ [(⟨429, some "soon", true, [], none, ""⟩ : Resp),
      ⟨200, none, true, ["item"], none, "ok"⟩], r.status = 429 ∨
        (r.status < 400 ∧ r.jsonOk = true ∧ r.nextLink = none)) ∧
    (¬ ∃ items, gget_all [⟨429, some "soon", true, [], none, ""⟩,
      ⟨200, none, true, ["item"], none, "ok"⟩] = .ok items) ∧
    gget_all [⟨600, none, true, ["x"], none, "body"⟩] = .ok ["x"] ∧
    (∀ r ∈ [(⟨600, none, true, ["x"], none, "body"⟩ : Resp)], 400 ≤ r.status) := by
  refine ⟨by decide, by decide, ?_, by decide, by decide⟩
  rintro ⟨items, h⟩
  rw [show gget_all [⟨429, some "soon", true, [], none, ""⟩,
    ⟨200, none, true, ["item"], none, "ok"⟩] = .valueError from by decide] at h
  exact FetchOutcome.noConfusion h

end PimAudit
